import Mathlib

/-!
Shallow embedding of the STM8_headers example programs
(`src/examples/adc1_scan/main.c`, `src/examples/blink_noInterrupt/main.c`,
register layout from `src/include/STM8AF6289.h`), together with theorems
checking the repository specification against the code.

Machine integers are modelled as `Nat` with explicit reduction modulo
`2 ^ w` at the points where the C code's unsigned arithmetic wraps
(`uint8_t` registers: `2 ^ 8`; `uint32_t` counters: `2 ^ 32`).
-/

/-- The five byte-wide registers of one GPIO port, in declaration order of
`PORT_t` in `src/include/STM8AF6289.h` (ODR, IDR, DDR, CR1, CR2).  Each
field is the `uint8_t` `byte` view of the register. -/
structure PORT_t where
  ODR : Nat
  IDR : Nat
  DDR : Nat
  CR1 : Nat
  CR2 : Nat

/-- Embedding of `toggle_pin` from `src/examples/blink_noInterrupt/main.c`:
`port->ODR.byte ^= (1 << pin);`.  The xor result is stored back into the
`uint8_t` register, hence the reduction modulo `2 ^ 8`. -/
def toggle_pin (port : PORT_t) (pin : Nat) : PORT_t :=
  { port with ODR := (port.ODR ^^^ (1 <<< pin)) % 2 ^ 8 }

/-- The shared and local state of the `adc1_scan` example
(`src/examples/adc1_scan/main.c`).  `g_millis` is the shared `uint32_t`
millisecond tick counter, `g_ADC_result` the shared 4-slot channel result
array, `channelCursor` the sampling handler's round-robin channel index,
`nextPrint` the foreground loop's `uint32_t` deadline, `odrC` the
`sfr_PORTC.ODR` byte, and `out` the list of reports emitted so far, each
recorded as the argument tuple passed to the five `printf` calls
(tick value, channel result array snapshot). -/
structure SysState where
  g_millis : Nat
  g_ADC_result : List Nat
  channelCursor : Nat
  nextPrint : Nat
  odrC : Nat
  out : List (Nat × List Nat)

/-- One iteration of the foreground reporting loop of
`src/examples/adc1_scan/main.c` (lines 87-105): if `g_millis >= nextPrint`
then `nextPrint += 500` (`uint32_t` arithmetic), the LED bit
`sfr_PORTC.ODR.ODR5` is toggled, and one report with the current
`g_millis` and `g_ADC_result` is printed; otherwise nothing happens. -/
def mainLoopBody (s : SysState) : SysState :=
  if s.nextPrint ≤ s.g_millis then
    { s with
      nextPrint := (s.nextPrint + 500) % 2 ^ 32
      odrC := (s.odrC ^^^ (1 <<< 5)) % 2 ^ 8
      out := s.out ++ [(s.g_millis, s.g_ADC_result)] }
  else s

/-- Modelled from the spec: the Sampling Handler (the timer/ADC interrupt
body living in the example's `timer4.h`/`adc1.h`, which are not under
`src/`).  Per spec section 4.2, on each firing it (a)-(b) stores the
completed conversion value into `ChannelResultArray[ChannelCursor]`,
(c) advances `ChannelCursor` modulo N = 4, (d) starts the next conversion
(no effect on the modelled state), and (e) increments the `uint32_t`
`TickCounter` (`g_millis`), which wraps on overflow. -/
def samplingHandler (v : Nat) (s : SysState) : SysState :=
  { s with
    g_ADC_result := s.g_ADC_result.set s.channelCursor v
    channelCursor := (s.channelCursor + 1) % 4
    g_millis := (s.g_millis + 1) % 2 ^ 32 }

/-- The state of the `adc1_scan` example when the main loop is first
entered: `nextPrint` was initialised to `0` (line 60 of `main.c`),
`g_millis` to `0` at startup, the result array and cursor are zeroed
(C zero-initialised globals), and `sfr_PORTC.ODR` still holds its reset
value `0x00`; no report has been emitted. -/
def initState : SysState :=
  { g_millis := 0
    g_ADC_result := [0, 0, 0, 0]
    channelCursor := 0
    nextPrint := 0
    odrC := 0
    out := [] }

/-- Driving the foreground loop over a list of observed tick values: for
each element `t` the shared counter `g_millis` holds `t` (it is updated
by the interrupt, not by the loop) and one loop iteration runs. -/
def runAtTicks (ticks : List Nat) (s : SysState) : SysState :=
  ticks.foldl (fun s t => mainLoopBody { s with g_millis := t }) s

/-- The tick values at which a report fired when the loop runs from the
startup state over the given observed tick values (first components of
the emitted report records). -/
def firedReports (ticks : List Nat) : List Nat :=
  ((runAtTicks ticks initState).out).map Prod.fst

/-- An event of the concurrent system: one firing of the sampling handler
(carrying the conversion value it reads), or one iteration of the
foreground loop. -/
inductive Ev where
  | tick (v : Nat) : Ev
  | loop : Ev

/-- One step of the interleaved system. -/
def stepEv (s : SysState) (e : Ev) : SysState :=
  match e with
  | Ev.tick v => samplingHandler v s
  | Ev.loop => mainLoopBody s

/-- Running an arbitrary interleaving of handler firings and loop
iterations. -/
def runEvs (evs : List Ev) (s : SysState) : SysState :=
  evs.foldl stepEv s

/-- The number of timer-interrupt firings in an interleaving. -/
def countFirings : List Ev → Nat
  | [] => 0
  | Ev.tick _ :: es => countFirings es + 1
  | Ev.loop :: es => countFirings es


/-- Modelled from the spec: the decimal rendering done by `printf`'s
`%ld` conversion for the `uint32_t` tick value (stdio is outside the
core): the 32-bit value is read as a signed long and printed in decimal,
so values below `2 ^ 31` print as plain decimal digits and larger values
print with a leading minus sign. -/
def fmt_ld (t : Nat) : List Char :=
  if t < 2 ^ 31 then (Nat.repr t).data else '-' :: (Nat.repr (2 ^ 32 - t)).data

/-- Modelled from the spec: the decimal rendering done by `printf`'s `%d`
conversion after the `(int)` cast of a 16-bit channel value (16-bit `int`
on the target compilers). -/
def fmt_d (v : Nat) : List Char :=
  if v % 2 ^ 16 < 2 ^ 15 then (Nat.repr (v % 2 ^ 16)).data
  else '-' :: (Nat.repr (2 ^ 16 - v % 2 ^ 16)).data

/-- The character stream of one report, obtained by concatenating the five
`printf` calls of `src/examples/adc1_scan/main.c` lines 97-101 with their
format strings instantiated. -/
def reportChars (t : Nat) (r : List Nat) : List Char :=
  "  time: ".data ++ fmt_ld t ++ "  ".data
  ++ "  AIN0: ".data ++ fmt_d (r.getD 0 0) ++ "  ".data
  ++ "  AIN1: ".data ++ fmt_d (r.getD 1 0) ++ "  ".data
  ++ "  AIN2: ".data ++ fmt_d (r.getD 2 0) ++ "  ".data
  ++ "  AIN3: ".data ++ fmt_d (r.getD 3 0) ++ "\n".data

/-- One emitted report as a string. -/
def reportLine (t : Nat) (r : List Nat) : String :=
  ⟨reportChars t r⟩

/-- Modelled from the spec: `UART2_write`, the output sink of the example
(`uart2.h` is not under `src/`).  Per spec section 6 it is a black box
`write(byte) -> byte_written_or_error`: it appends the byte to the sink
stream and reports acceptance or failure; `accept` is the black box's
failure oracle. -/
def UART2_write (accept : Nat → Bool) (buf : List Nat) (data : Nat) :
    List Nat × Bool :=
  (buf ++ [data], accept data)

/-- Embedding of `putchar` from `src/examples/adc1_scan/main.c` (lines
40-52): it sends the byte via `UART2_write`, discards any status of the
sink, and returns the sent byte. -/
def putchar (accept : Nat → Bool) (buf : List Nat) (data : Nat) :
    List Nat × Nat :=
  ((UART2_write accept buf data).1, data)

/-! ## Helper lemmas -/

lemma runAtTicks_append (l1 l2 : List Nat) (s : SysState) :
    runAtTicks (l1 ++ l2) s = runAtTicks l2 (runAtTicks l1 s) := by
  simp [runAtTicks, List.foldl_append]

lemma mainLoopBody_shared (s : SysState) :
    (mainLoopBody s).g_millis = s.g_millis ∧
    (mainLoopBody s).g_ADC_result = s.g_ADC_result ∧
    (mainLoopBody s).channelCursor = s.channelCursor := by
  rw [mainLoopBody]
  split <;> exact ⟨rfl, rfl, rfl⟩

lemma runAtTicks_deadline_aux : ∀ (ticks : List Nat) (s : SysState), s.nextPrint < 2 ^ 32 →
    ∃ k, (runAtTicks ticks s).out.length = s.out.length + k ∧
      (runAtTicks ticks s).nextPrint = (s.nextPrint + 500 * k) % 2 ^ 32 := by
  intro ticks
  induction ticks with
  | nil =>
    intro s hs
    exact ⟨0, rfl, by simpa using (Nat.mod_eq_of_lt hs).symm⟩
  | cons t ts ih =>
    intro s hs
    by_cases hfire : s.nextPrint ≤ t
    · have hstep : runAtTicks (t :: ts) s = runAtTicks ts
          { s with g_millis := t
                   nextPrint := (s.nextPrint + 500) % 2 ^ 32
                   odrC := (s.odrC ^^^ (1 <<< 5)) % 2 ^ 8
                   out := s.out ++ [(t, s.g_ADC_result)] } := by
        rw [show runAtTicks (t :: ts) s
              = runAtTicks ts (mainLoopBody { s with g_millis := t }) from rfl,
            mainLoopBody, if_pos hfire]
      rw [hstep]
      obtain ⟨k, hlen, hnp⟩ := ih
        { s with g_millis := t
                 nextPrint := (s.nextPrint + 500) % 2 ^ 32
                 odrC := (s.odrC ^^^ (1 <<< 5)) % 2 ^ 8
                 out := s.out ++ [(t, s.g_ADC_result)] }
        (Nat.mod_lt _ (by omega))
      refine ⟨k + 1, ?_, ?_⟩
      · rw [hlen]
        simp only [List.length_append, List.length_cons, List.length_nil]
        omega
      · rw [hnp]
        show ((s.nextPrint + 500) % 2 ^ 32 + 500 * k) % 2 ^ 32
           = (s.nextPrint + 500 * (k + 1)) % 2 ^ 32
        omega
    · have hstep : runAtTicks (t :: ts) s = runAtTicks ts { s with g_millis := t } := by
        rw [show runAtTicks (t :: ts) s
              = runAtTicks ts (mainLoopBody { s with g_millis := t }) from rfl,
            mainLoopBody, if_neg hfire]
      rw [hstep]
      exact ih { s with g_millis := t } hs

lemma runRange_invariant : ∀ n, n ≤ 1001 →
    (runAtTicks (List.range n) initState).out.map Prod.fst
      = (List.range n).filter (fun t => t % 500 = 0) ∧
    (runAtTicks (List.range n) initState).nextPrint = 500 * ((n + 499) / 500) := by
  intro n
  induction n with
  | zero => intro _; constructor <;> rfl
  | succ n ih =>
    intro hn
    obtain ⟨hout, hnp⟩ := ih (by omega)
    rw [List.range_succ, runAtTicks_append]
    have hrun : runAtTicks [n] (runAtTicks (List.range n) initState)
        = mainLoopBody { (runAtTicks (List.range n) initState) with g_millis := n } := rfl
    rw [hrun]
    by_cases hfire : n % 500 = 0
    · have hguard : ({ (runAtTicks (List.range n) initState) with
          g_millis := n } : SysState).nextPrint
          ≤ ({ (runAtTicks (List.range n) initState) with
          g_millis := n } : SysState).g_millis := by
        simp only [hnp]
        omega
      rw [mainLoopBody, if_pos hguard]
      constructor
      · simp only [List.map_append, hout, List.filter_append]
        simp [hfire]
      · simp only [hnp]
        omega
    · have hguard : ¬ ({ (runAtTicks (List.range n) initState) with
          g_millis := n } : SysState).nextPrint
          ≤ ({ (runAtTicks (List.range n) initState) with
          g_millis := n } : SysState).g_millis := by
        simp only [hnp]
        omega
      rw [mainLoopBody, if_neg hguard]
      constructor
      · simp only [hout, List.filter_append]
        simp [hfire]
      · simp only [hnp]
        omega

lemma firedReports_range_1001 :
    firedReports (List.range 1001) = (List.range 1001).filter (fun t => t % 500 = 0) :=
  (runRange_invariant 1001 (by omega)).1

lemma mem_firedReports_iff (t : Nat) (ht : t ≤ 1000) :
    t ∈ firedReports (List.range 1001) ↔ t % 500 = 0 := by
  rw [firedReports_range_1001, List.mem_filter]
  simp only [List.mem_range, decide_eq_true_eq]
  omega

lemma runEvs_g_millis : ∀ (evs : List Ev) (s : SysState), s.g_millis < 2 ^ 32 →
    (runEvs evs s).g_millis = (s.g_millis + countFirings evs) % 2 ^ 32 := by
  intro evs
  induction evs with
  | nil =>
    intro s hs
    show s.g_millis = (s.g_millis + 0) % 2 ^ 32
    omega
  | cons e es ih =>
    intro s hs
    cases e with
    | tick v =>
      rw [show runEvs (Ev.tick v :: es) s = runEvs es (samplingHandler v s) from rfl,
          ih (samplingHandler v s) (Nat.mod_lt _ (by omega))]
      show ((s.g_millis + 1) % 2 ^ 32 + countFirings es) % 2 ^ 32
         = (s.g_millis + (countFirings es + 1)) % 2 ^ 32
      omega
    | loop =>
      rw [show runEvs (Ev.loop :: es) s = runEvs es (mainLoopBody s) from rfl,
          ih (mainLoopBody s) (by rw [(mainLoopBody_shared s).1]; exact hs),
          (mainLoopBody_shared s).1]
      rfl

lemma runEvs_no_firings : ∀ (evs : List Ev) (s : SysState), countFirings evs = 0 →
    (runEvs evs s).g_millis = s.g_millis ∧
    (runEvs evs s).g_ADC_result = s.g_ADC_result ∧
    (runEvs evs s).channelCursor = s.channelCursor := by
  intro evs
  induction evs with
  | nil => exact fun s _ => ⟨rfl, rfl, rfl⟩
  | cons e es ih =>
    intro s hc
    cases e with
    | tick v => exact absurd hc (by simp [countFirings])
    | loop =>
      rw [show runEvs (Ev.loop :: es) s = runEvs es (mainLoopBody s) from rfl]
      obtain ⟨h1, h2, h3⟩ := ih (mainLoopBody s) hc
      obtain ⟨g1, g2, g3⟩ := mainLoopBody_shared s
      exact ⟨h1.trans g1, h2.trans g2, h3.trans g3⟩

lemma digitChar_ne_newline (m : Nat) : Nat.digitChar m ≠ '\n' := by
  by_cases hm : m < 16
  · interval_cases m <;> decide
  · have hstar : Nat.digitChar m = '*' := by
      unfold Nat.digitChar
      repeat rw [if_neg (by omega)]
    rw [hstar]
    decide

lemma mem_toDigitsCore (b : Nat) : ∀ (f n : Nat) (acc : List Char) (ch : Char),
    ch ∈ Nat.toDigitsCore b f n acc → ch ∈ acc ∨ ∃ m, ch = Nat.digitChar m := by
  intro f
  induction f with
  | zero => exact fun n acc ch h => Or.inl h
  | succ f ih =>
    intro n acc ch h
    simp only [Nat.toDigitsCore] at h
    split at h
    · rcases List.mem_cons.mp h with h1 | h2
      · exact Or.inr ⟨n % b, h1⟩
      · exact Or.inl h2
    · rcases ih (n / b) (Nat.digitChar (n % b) :: acc) ch h with h1 | h2
      · rcases List.mem_cons.mp h1 with h3 | h4
        · exact Or.inr ⟨n % b, h3⟩
        · exact Or.inl h4
      · exact Or.inr h2

lemma newline_not_mem_repr (n : Nat) : '\n' ∉ (Nat.repr n).data := by
  intro h
  have h2 : '\n' ∈ Nat.toDigitsCore 10 (n + 1) n [] := h
  rcases mem_toDigitsCore 10 (n + 1) n [] '\n' h2 with h3 | ⟨m, hm⟩
  · simp at h3
  · exact digitChar_ne_newline m hm.symm

lemma count_newline_fmt_ld (t : Nat) : (fmt_ld t).count '\n' = 0 := by
  rw [fmt_ld]
  split
  · exact List.count_eq_zero.mpr (newline_not_mem_repr t)
  · rw [List.count_cons, List.count_eq_zero.mpr (newline_not_mem_repr (2 ^ 32 - t))]
    decide

lemma count_newline_fmt_d (v : Nat) : (fmt_d v).count '\n' = 0 := by
  rw [fmt_d]
  split
  · exact List.count_eq_zero.mpr (newline_not_mem_repr (v % 2 ^ 16))
  · rw [List.count_cons, List.count_eq_zero.mpr (newline_not_mem_repr (2 ^ 16 - v % 2 ^ 16))]
    decide

lemma count_newline_report (t : Nat) (r : List Nat) :
    (reportChars t r).count '\n' = 1 := by
  rw [reportChars]
  simp only [List.count_append, count_newline_fmt_ld, count_newline_fmt_d]
  decide

lemma fmt_ld_small (t : Nat) (h : t < 2 ^ 31) : fmt_ld t = (Nat.repr t).data := by
  rw [fmt_ld, if_pos h]

lemma fmt_d_small (v : Nat) (h : v < 2 ^ 15) : fmt_d v = (Nat.repr v).data := by
  rw [fmt_d, Nat.mod_eq_of_lt (by omega), if_pos h]

lemma getD_small (r : List Nat) (hr : ∀ v ∈ r, v < 2 ^ 15) (i : Nat) :
    r.getD i 0 < 2 ^ 15 := by
  rw [List.getD_eq_getElem?_getD]
  rcases hi : r[i]? with _ | v
  · decide
  · exact hr v (List.getElem?_mem hi)

/-! ## Claim theorems -/

/-- C1: in the foreground reporting loop, every firing of the report
branch advances the deadline by adding the fixed interval to the previous
deadline (`nextPrint += 500`, `uint32_t` arithmetic), never recomputing
it from the current tick; hence after `k` reports the deadline equals the
initial deadline plus `k * 500` (reduced modulo the `uint32_t` range) —
drift-free accumulation, for any sequence of observed tick values. -/
theorem nextPrint_additive_deadline (ticks : List Nat) (s : SysState)
    (hs : s.nextPrint < 2 ^ 32) :
    (runAtTicks ticks s).nextPrint
      = (s.nextPrint
          + 500 * ((runAtTicks ticks s).out.length - s.out.length)) % 2 ^ 32 := by
  obtain ⟨k, hlen, hnp⟩ := runAtTicks_deadline_aux ticks s hs
  rw [hlen, hnp]
  congr 2
  omega

/-- C1 witness: the loop driven by the tick values 0 and 500 from the
startup state. -/
theorem nextPrint_additive_deadline_witness :
    initState.nextPrint < 2 ^ 32 ∧
    (runAtTicks [0, 500] initState).nextPrint
      = (initState.nextPrint
          + 500 * ((runAtTicks [0, 500] initState).out.length
              - initState.out.length)) % 2 ^ 32 :=
  ⟨by decide, nextPrint_additive_deadline [0, 500] initState (by decide)⟩

/-- C2 counterexample: with ticks arriving as 0, 1, ..., 1000, the loop
also fires a report at tick value 0 (the code initialises `nextPrint` to
0, not to the first interval), so reports do not fire only at 500 and
1000. -/
theorem report_fires_at_tick_zero :
    0 ∈ firedReports (List.range 1001) ∧ (0 : Nat) ≠ 500 ∧ (0 : Nat) ≠ 1000 :=
  ⟨(mem_firedReports_iff 0 (by omega)).mpr (by omega), by omega, by omega⟩

/-- C2 (amended): the foreground loop starts with its deadline equal to 0
(not to the first interval), so with interval 500 and tick values arriving
as 0, 1, ..., 1000 a report fires exactly at the tick values that are
multiples of 500, namely 0, 500 and 1000, and at no other tick values. -/
theorem reports_at_multiples_of_interval :
    initState.nextPrint = 0 ∧
    ∀ t, t ≤ 1000 → (t ∈ firedReports (List.range 1001) ↔ t % 500 = 0) :=
  ⟨rfl, fun t ht => mem_firedReports_iff t ht⟩

/-- C2 witness: tick value 500 is within range and fires a report. -/
theorem reports_at_multiples_of_interval_witness :
    500 ≤ 1000 ∧ (500 ∈ firedReports (List.range 1001) ↔ 500 % 500 = 0) :=
  ⟨by omega, reports_at_multiples_of_interval.2 500 (by omega)⟩

/-- C3: no iteration of the foreground reporting loop writes any of the
shared sampler state (`g_millis`, `g_ADC_result`, `channelCursor`);
consequently, in any interleaving that contains no handler firing the
shared sampler state is unchanged — only the interrupt-context sampling
handler mutates it. -/
theorem foreground_loop_no_shared_writes :
    (∀ s : SysState,
      (mainLoopBody s).g_millis = s.g_millis ∧
      (mainLoopBody s).g_ADC_result = s.g_ADC_result ∧
      (mainLoopBody s).channelCursor = s.channelCursor) ∧
    (∀ (evs : List Ev) (s : SysState), countFirings evs = 0 →
      (runEvs evs s).g_millis = s.g_millis ∧
      (runEvs evs s).g_ADC_result = s.g_ADC_result ∧
      (runEvs evs s).channelCursor = s.channelCursor) :=
  ⟨mainLoopBody_shared, runEvs_no_firings⟩

/-- C3 witness: three loop iterations with no handler firing leave the
shared sampler state of the startup state unchanged. -/
theorem foreground_loop_no_shared_writes_witness :
    countFirings [Ev.loop, Ev.loop, Ev.loop] = 0 ∧
    ((runEvs [Ev.loop, Ev.loop, Ev.loop] initState).g_millis = initState.g_millis ∧
     (runEvs [Ev.loop, Ev.loop, Ev.loop] initState).g_ADC_result = initState.g_ADC_result ∧
     (runEvs [Ev.loop, Ev.loop, Ev.loop] initState).channelCursor = initState.channelCursor) :=
  ⟨by decide,
   foreground_loop_no_shared_writes.2 [Ev.loop, Ev.loop, Ev.loop] initState (by decide)⟩

/-- C4: the tick counter `g_millis` starts at 0, is incremented by
exactly 1 on each timer-interrupt firing, and after any interleaving
containing `M` firings its value is the initial value plus `M`, reduced
modulo the `uint32_t` wraparound range, regardless of how foreground-loop
iterations are interleaved. -/
theorem tickCounter_counts_firings :
    initState.g_millis = 0 ∧
    (∀ (v : Nat) (s : SysState),
      (samplingHandler v s).g_millis = (s.g_millis + 1) % 2 ^ 32) ∧
    (∀ (evs : List Ev) (s : SysState), s.g_millis < 2 ^ 32 →
      (runEvs evs s).g_millis = (s.g_millis + countFirings evs) % 2 ^ 32) :=
  ⟨rfl, fun v s => rfl, runEvs_g_millis⟩

/-- C4 witness: two firings interleaved with one loop iteration advance
the counter from 0 to 2. -/
theorem tickCounter_counts_firings_witness :
    initState.g_millis < 2 ^ 32 ∧
    (runEvs [Ev.tick 7, Ev.loop, Ev.tick 9] initState).g_millis
      = (initState.g_millis + countFirings [Ev.tick 7, Ev.loop, Ev.tick 9]) % 2 ^ 32 :=
  ⟨by decide,
   tickCounter_counts_firings.2.2 [Ev.tick 7, Ev.loop, Ev.tick 9] initState (by decide)⟩

/-- C5: the sampling handler services the channels round-robin: each
firing writes exactly the slot at the channel cursor and advances the
cursor cyclically through 0..3, and over any window of 4 consecutive
firings every one of the 4 channel slots is written (slot `j` holds the
value of the window's firing number `(j + 4 - cursor) % 4`); no channel
is starved. -/
theorem samplingHandler_round_robin (s : SysState) (a b c d : Nat)
    (hcur : s.channelCursor < 4) (hlen : s.g_ADC_result.length = 4) :
    (∀ j, j < 4 →
      (samplingHandler d (samplingHandler c (samplingHandler b
        (samplingHandler a s)))).g_ADC_result[j]?
        = [a, b, c, d][(j + 4 - s.channelCursor) % 4]?)
    ∧ (∀ (v : Nat) (t : SysState),
        (samplingHandler v t).channelCursor = (t.channelCursor + 1) % 4)
    ∧ (∀ (v : Nat) (t : SysState) (j : Nat), j ≠ t.channelCursor →
        (samplingHandler v t).g_ADC_result[j]? = t.g_ADC_result[j]?)
    ∧ (∀ (v : Nat) (t : SysState), t.channelCursor < t.g_ADC_result.length →
        (samplingHandler v t).g_ADC_result[t.channelCursor]? = some v) := by
  refine ⟨?_, fun v t => rfl, ?_, ?_⟩
  · obtain ⟨m, arr, cc, np, od, outp⟩ := s
    simp only at hcur hlen ⊢
    rcases arr with _ | ⟨w, _ | ⟨x, _ | ⟨y, _ | ⟨z, _ | ⟨u, rest⟩⟩⟩⟩⟩ <;> simp at hlen
    interval_cases cc <;>
      · intro j hj
        interval_cases j <;> simp [samplingHandler]
  · intro v t j hj
    show (t.g_ADC_result.set t.channelCursor v)[j]? = t.g_ADC_result[j]?
    exact List.getElem?_set_ne (by omega)
  · intro v t ht
    show (t.g_ADC_result.set t.channelCursor v)[t.channelCursor]? = some v
    exact List.getElem?_set_self ht

/-- C5 witness: four firings with values 11, 22, 33, 44 from the startup
state; slot 2 holds the value of firing number 2. -/
theorem samplingHandler_round_robin_witness :
    initState.channelCursor < 4 ∧ initState.g_ADC_result.length = 4 ∧ 2 < 4 ∧
    (samplingHandler 44 (samplingHandler 33 (samplingHandler 22
      (samplingHandler 11 initState)))).g_ADC_result[2]?
      = [11, 22, 33, 44][(2 + 4 - initState.channelCursor) % 4]? :=
  ⟨by decide, by decide, by decide,
   (samplingHandler_round_robin initState 11 22 33 44 (by decide) (by decide)).1
     2 (by decide)⟩

/-- C6: each firing of the report branch emits exactly one report (and a
non-firing iteration emits none); the emitted line consists of
`time: <tick>` followed by `AIN0: <v0>`, `AIN1: <v1>`, `AIN2: <v2>`,
`AIN3: <v3>`, each value rendered as a decimal integer (for tick below
`2 ^ 31` and channel values below `2 ^ 15`, i.e. in the 10-bit ADC
range), and is a single line terminated by exactly one line break. -/
theorem report_format_single_line :
    (∀ s : SysState, s.nextPrint ≤ s.g_millis →
      (mainLoopBody s).out = s.out ++ [(s.g_millis, s.g_ADC_result)])
    ∧ (∀ s : SysState, s.g_millis < s.nextPrint → (mainLoopBody s).out = s.out)
    ∧ (∀ (t : Nat) (r : List Nat), t < 2 ^ 31 → (∀ v ∈ r, v < 2 ^ 15) →
        (reportLine t r).data
          = "  time: ".data ++ (Nat.repr t).data ++ "  ".data
            ++ "  AIN0: ".data ++ (Nat.repr (r.getD 0 0)).data ++ "  ".data
            ++ "  AIN1: ".data ++ (Nat.repr (r.getD 1 0)).data ++ "  ".data
            ++ "  AIN2: ".data ++ (Nat.repr (r.getD 2 0)).data ++ "  ".data
            ++ "  AIN3: ".data ++ (Nat.repr (r.getD 3 0)).data ++ "\n".data)
    ∧ (∀ (t : Nat) (r : List Nat), (reportLine t r).data.count '\n' = 1) := by
  refine ⟨?_, ?_, ?_, ?_⟩
  · intro s h
    rw [mainLoopBody, if_pos h]
  · intro s h
    rw [mainLoopBody, if_neg (by omega)]
  · intro t r ht hr
    show reportChars t r = _
    rw [reportChars, fmt_ld_small t ht, fmt_d_small _ (getD_small r hr 0),
        fmt_d_small _ (getD_small r hr 1), fmt_d_small _ (getD_small r hr 2),
        fmt_d_small _ (getD_small r hr 3)]
  · intro t r
    exact count_newline_report t r

/-- C6 witness: the startup state fires (its deadline 0 is reached) and
appends exactly one report record, and the report line for tick 1234 with
channel values 1, 2, 3, 4 decomposes into the labelled decimal fields. -/
theorem report_format_single_line_witness :
    initState.nextPrint ≤ initState.g_millis ∧
    (mainLoopBody initState).out
      = initState.out ++ [(initState.g_millis, initState.g_ADC_result)] ∧
    (1234 : Nat) < 2 ^ 31 ∧ (∀ v ∈ ([1, 2, 3, 4] : List Nat), v < 2 ^ 15) ∧
    (reportLine 1234 [1, 2, 3, 4]).data
      = "  time: ".data ++ (Nat.repr 1234).data ++ "  ".data
        ++ "  AIN0: ".data ++ (Nat.repr (([1, 2, 3, 4] : List Nat).getD 0 0)).data ++ "  ".data
        ++ "  AIN1: ".data ++ (Nat.repr (([1, 2, 3, 4] : List Nat).getD 1 0)).data ++ "  ".data
        ++ "  AIN2: ".data ++ (Nat.repr (([1, 2, 3, 4] : List Nat).getD 2 0)).data ++ "  ".data
        ++ "  AIN3: ".data ++ (Nat.repr (([1, 2, 3, 4] : List Nat).getD 3 0)).data ++ "\n".data :=
  ⟨by decide, report_format_single_line.1 initState (by decide),
   by decide, by decide,
   report_format_single_line.2.2.1 1234 [1, 2, 3, 4] (by decide) (by decide)⟩

/-- C8: `putchar` passes its byte to the output sink and returns that
same byte; the sink's accept/failure status is discarded, so a write
failure is never detected or propagated — the behaviour is identical
under every failure oracle. -/
theorem putchar_passes_byte_and_returns_it :
    ∀ (accept : Nat → Bool) (buf : List Nat) (data : Nat),
      (putchar accept buf data).1 = buf ++ [data]
      ∧ (putchar accept buf data).2 = data
      ∧ (∀ accept2 : Nat → Bool, putchar accept buf data = putchar accept2 buf data) :=
  fun _ _ _ => ⟨rfl, rfl, fun _ => rfl⟩

/-- C9: for a pin index 0..7 and an in-range `uint8_t` ODR value,
`toggle_pin` flips exactly bit `pin` of the port's output data register
and leaves every other ODR bit and the registers IDR, DDR, CR1 and CR2
unchanged. -/
theorem toggle_pin_flips_only_target_bit (port : PORT_t) (pin : Nat)
    (hpin : pin < 8) (hodr : port.ODR < 2 ^ 8) :
    ((toggle_pin port pin).ODR.testBit pin = ! port.ODR.testBit pin)
    ∧ (∀ j, j ≠ pin → (toggle_pin port pin).ODR.testBit j = port.ODR.testBit j)
    ∧ (toggle_pin port pin).IDR = port.IDR
    ∧ (toggle_pin port pin).DDR = port.DDR
    ∧ (toggle_pin port pin).CR1 = port.CR1
    ∧ (toggle_pin port pin).CR2 = port.CR2 := by
  have hmask : (1 <<< pin) < 2 ^ 8 := by
    rw [Nat.shiftLeft_eq, one_mul]
    exact Nat.pow_lt_pow_right (by omega) hpin
  have hlt : port.ODR ^^^ (1 <<< pin) < 2 ^ 8 := Nat.xor_lt_two_pow hodr hmask
  refine ⟨?_, ?_, rfl, rfl, rfl, rfl⟩
  · show ((port.ODR ^^^ (1 <<< pin)) % 2 ^ 8).testBit pin = ! port.ODR.testBit pin
    rw [Nat.mod_eq_of_lt hlt, Nat.testBit_xor, Nat.shiftLeft_eq, one_mul,
        Nat.testBit_two_pow_self]
    simp
  · intro j hj
    show ((port.ODR ^^^ (1 <<< pin)) % 2 ^ 8).testBit j = port.ODR.testBit j
    rw [Nat.mod_eq_of_lt hlt, Nat.testBit_xor, Nat.shiftLeft_eq, one_mul,
        Nat.testBit_two_pow_of_ne (fun h => hj h.symm)]
    simp

/-- C9 witness: toggling pin 5 of a port with ODR `0xAA` flips bit 5 and
keeps IDR. -/
theorem toggle_pin_flips_only_target_bit_witness :
    (5 : Nat) < 8 ∧ (PORT_t.mk 170 1 2 3 4).ODR < 2 ^ 8 ∧
    ((toggle_pin (PORT_t.mk 170 1 2 3 4) 5).ODR.testBit 5
      = ! (PORT_t.mk 170 1 2 3 4).ODR.testBit 5) ∧
    (toggle_pin (PORT_t.mk 170 1 2 3 4) 5).IDR = (PORT_t.mk 170 1 2 3 4).IDR :=
  ⟨by decide, by decide,
   (toggle_pin_flips_only_target_bit (PORT_t.mk 170 1 2 3 4) 5 (by decide) (by decide)).1,
   (toggle_pin_flips_only_target_bit (PORT_t.mk 170 1 2 3 4) 5 (by decide) (by decide)).2.2.1⟩

/-- C10: applying `toggle_pin` twice with the same pin index restores the
port's output data register to its original in-range value, for every pin
index — `toggle_pin` is an involution on the ODR byte. -/
theorem toggle_pin_involution (port : PORT_t) (pin : Nat)
    (hodr : port.ODR < 2 ^ 8) :
    (toggle_pin (toggle_pin port pin) pin).ODR = port.ODR := by
  show (((port.ODR ^^^ (1 <<< pin)) % 2 ^ 8 ^^^ (1 <<< pin)) % 2 ^ 8) = port.ODR
  apply Nat.eq_of_testBit_eq
  intro i
  rw [Nat.testBit_mod_two_pow, Nat.testBit_xor, Nat.testBit_mod_two_pow, Nat.testBit_xor]
  by_cases hi : i < 8
  · simp [hi, Bool.xor_assoc]
  · have hbig : port.ODR < 2 ^ i :=
      lt_of_lt_of_le hodr (Nat.pow_le_pow_right (by omega) (by omega))
    simp [hi, Nat.testBit_eq_false_of_lt hbig]

/-- C10 witness: double toggle of pin 3 on ODR `0xAA` restores the ODR
byte. -/
theorem toggle_pin_involution_witness :
    (PORT_t.mk 170 1 2 3 4).ODR < 2 ^ 8 ∧
    (toggle_pin (toggle_pin (PORT_t.mk 170 1 2 3 4) 3) 3).ODR
      = (PORT_t.mk 170 1 2 3 4).ODR :=
  ⟨by decide, toggle_pin_involution (PORT_t.mk 170 1 2 3 4) 3 (by decide)⟩
